import Mathlib

/-!
Verification development for the Fileway LAN file-transfer core
(`fileTransfer.js` / `discovery.js`).

The two services are embedded shallowly:

* the TCP transfer service (`FileTransfer`): header parsing on inbound
  connections, the single pending-offer slot, accept/reject/cancel, the
  accepted-receive streaming handlers and the sender streaming loop;
* the UDP discovery service (`DeviceDiscovery`): presence-message handling,
  the device table, stale-device sweeping and the broadcast-address
  computation.

External effects (sockets, the file system, `JSON.parse` of headers) are
modelled explicitly: socket writes become a trace of `SockAction`s, the
destination file becomes a `WriteStream` value, `fs.unlinkSync` outcomes are
passed in as an `Except` value, and header parsing is a function parameter.
Machine numbers in the JavaScript are modelled as `Nat`/`Int`/`Rat` with the
32-bit / 8-bit reductions written out where the code uses bitwise operators.
-/

namespace Fileway

/-- `Math.round(q)` for a finite JavaScript number: round half toward +∞,
i.e. `⌊q + 1/2⌋`. -/
def jsRound (q : ℚ) : ℤ := ⌊q + 1 / 2⌋

/-- The `progress` field computed by `FileTransfer.emitProgress`:
`Math.round((bytes / total) * 100)`. When `total = 0` the JavaScript value
is `NaN` or `Infinity` (not a finite integer), modelled as `none`. -/
def progressValue (bytes total : ℕ) : Option ℤ :=
  if total = 0 then none else some (jsRound ((bytes : ℚ) / (total : ℚ) * 100))

/-- `Map.set` on an insertion-ordered association list (a JavaScript `Map`):
replace in place if the key is present, otherwise append. -/
def mapSet {α : Type} (k : String) (v : α) : List (String × α) → List (String × α)
  | [] => [(k, v)]
  | (k₀, v₀) :: rest =>
      if k₀ = k then (k, v) :: rest else (k₀, v₀) :: mapSet k v rest

/-- Running totals: `cumList start ns` is the list of partial sums
`start + ns₁, start + ns₁ + ns₂, …`. -/
def cumList : ℕ → List ℕ → List ℕ
  | _, [] => []
  | acc, n :: ns => (acc + n) :: cumList (acc + n) ns

namespace Transfer

/-- The parsed offer header (`transferInfo` in `handleIncomingConnection`). -/
structure TransferInfo where
  transferId : String
  fileName : String
  fileSize : ℕ
  senderEmail : String
deriving DecidableEq, Repr

/-- Events emitted by `FileTransfer` (`this.emit(...)`). -/
inductive Event where
  | transferRequest (senderEmail fileName : String) (fileSize : ℕ) (transferId : String)
  | transferProgress (transferId : String) (bytes total : ℕ) (progress : Option ℤ)
      (type_ : String)
  | transferComplete (transferId filePath fileName : String)
  | transferCancelled (transferId : String)
  | transferAccepted (transferId fileName : String)
  | transferRejected (transferId fileName : String)
  | sendComplete (transferId filePath : String)
deriving DecidableEq, Repr

/-- Actions performed on a TCP socket, tagged with a socket identifier. -/
inductive SockAction where
  | write (sock : ℕ) (data : String)
  | close (sock : ℕ)
  | pause (sock : ℕ)
  | resume (sock : ℕ)
deriving DecidableEq, Repr

/-- File-system actions performed by the service. -/
inductive FsAction where
  | unlink (filePath : String)
deriving DecidableEq, Repr

/-- Outcomes of `fs.unlinkSync`, supplied by the environment. -/
inductive FsErr where
  | enoent
  | eperm
  | other (code : String)
deriving DecidableEq, Repr

/-- A `fs.createWriteStream` destination file: the bytes written so far and
whether `end()` has been called (writes after `end` do not append). -/
structure WriteStream where
  content : List ℕ
  ended : Bool
deriving DecidableEq, Repr

/-- `fileStream.write(chunk)`: appends unless the stream has ended. -/
def WriteStream.write (s : WriteStream) (chunk : List ℕ) : WriteStream :=
  if s.ended then s else { s with content := s.content ++ chunk }

/-- State of an accepted inbound transfer: the destination stream, the
`receivedBytes` closure variable of `acceptTransfer`, and whether the id is
still in `activeTransfers`. -/
structure ActiveRecv where
  stream : WriteStream
  receivedBytes : ℕ
  inMap : Bool
deriving DecidableEq, Repr

/-- The body of `acceptTransfer` up to installing the data handler: create
the write stream, and if the offer-window buffer is non-empty write it,
count it into `receivedBytes` and emit one progress event (no completion
check is performed for the buffered write). -/
def acceptInit (info : TransferInfo) (leftover : List ℕ) : ActiveRecv × List Event :=
  if 0 < leftover.length then
    ({ stream := ⟨leftover, false⟩, receivedBytes := leftover.length, inMap := true },
     [Event.transferProgress info.transferId leftover.length info.fileSize
        (progressValue leftover.length info.fileSize) "receiving"])
  else
    ({ stream := ⟨[], false⟩, receivedBytes := 0, inMap := true }, [])

/-- The `socket.on('data')` handler installed by `acceptTransfer`: write the
chunk, bump `receivedBytes`, emit progress, and when
`receivedBytes >= fileSize` end the stream, drop the id from
`activeTransfers` and emit `transferComplete`. -/
def recvData (info : TransferInfo) (filePath : String) (st : ActiveRecv)
    (chunk : List ℕ) : ActiveRecv × List Event :=
  let stream := st.stream.write chunk
  let receivedBytes := st.receivedBytes + chunk.length
  let progressEv := Event.transferProgress info.transferId receivedBytes info.fileSize
      (progressValue receivedBytes info.fileSize) "receiving"
  if info.fileSize ≤ receivedBytes then
    ({ stream := { stream with ended := true }, receivedBytes := receivedBytes,
       inMap := false },
     [progressEv, Event.transferComplete info.transferId filePath info.fileName])
  else
    ({ stream := stream, receivedBytes := receivedBytes, inMap := st.inMap },
     [progressEv])

/-- The `socket.on('close')` handler installed by `acceptTransfer`: end the
stream and, if the threshold was reached, emit `transferComplete` (again). -/
def recvClose (info : TransferInfo) (filePath : String) (st : ActiveRecv) :
    List Event :=
  if info.fileSize ≤ st.receivedBytes then
    [Event.transferComplete info.transferId filePath info.fileName]
  else []

/-- Deliver a list of data chunks to an accepted transfer, accumulating
events. -/
def runChunks (info : TransferInfo) (filePath : String) :
    ActiveRecv × List Event → List (List ℕ) → ActiveRecv × List Event
  | p, [] => p
  | (st, evs), c :: cs =>
      let q := recvData info filePath st c
      runChunks info filePath (q.1, evs ++ q.2) cs

/-- Receiver-side run of one accepted transfer: the buffered offer-window
bytes, then the given data chunks. -/
def recvRun (info : TransferInfo) (filePath : String) (leftover : List ℕ)
    (chunks : List (List ℕ)) : ActiveRecv × List Event :=
  runChunks info filePath (acceptInit info leftover) chunks

/-- Events of a full accepted-transfer run whose connection closes after the
last data chunk. -/
def recvEventsClosed (info : TransferInfo) (filePath : String) (leftover : List ℕ)
    (chunks : List (List ℕ)) : List Event :=
  let p := recvRun info filePath leftover chunks
  p.2 ++ recvClose info filePath p.1

/-- How many `transferComplete` events a trace contains. -/
def completeCount (evs : List Event) : ℕ :=
  (evs.filter fun e => match e with
    | Event.transferComplete _ _ _ => true
    | _ => false).length

/-- The `(bytes, total, progress)` triples of the progress events in a
trace, in order. -/
def progressTriples (evs : List Event) : List (ℕ × ℕ × Option ℤ) :=
  evs.filterMap fun e => match e with
    | Event.transferProgress _ bytes total p _ => some (bytes, total, p)
    | _ => none

/-- The read-stream data handler of `streamFile`, iterated over the chunks
the read stream delivers: write each chunk to the socket, bump `sentBytes`
and report sending progress. -/
def sendChunks (sock : ℕ) (totalSize : ℕ) (transferId : String) :
    ℕ × List Event × List SockAction → List (List ℕ) →
      ℕ × List Event × List SockAction
  | acc, [] => acc
  | (sentBytes, evs, acts), chunk :: rest =>
      let sent := sentBytes + chunk.length
      sendChunks sock totalSize transferId
        (sent,
         evs ++ [Event.transferProgress transferId sent totalSize
            (progressValue sent totalSize) "sending"],
         acts ++ [SockAction.write sock (String.mk (chunk.map Char.ofNat))])
        rest

/-- `streamFile` on the sender side, given the chunking produced by the read
stream: write each chunk to the socket, report sending progress, then emit
`sendComplete` and end the socket. -/
def streamFile (sock : ℕ) (filePath : String) (totalSize : ℕ) (transferId : String)
    (fileChunks : List (List ℕ)) : List Event × List SockAction :=
  let r := sendChunks sock totalSize transferId (0, [], []) fileChunks
  (r.2.1 ++ [Event.sendComplete transferId filePath],
   r.2.2 ++ [SockAction.close sock])

/-- The single pending-offer slot (`this.pendingTransfer`): the socket, the
parsed header, and the bytes already read past the header delimiter. -/
structure Pending where
  sock : ℕ
  transferInfo : TransferInfo
  buffer : List ℕ
deriving DecidableEq, Repr

/-- Per-connection local state of `handleIncomingConnection`. -/
structure ConnState where
  buffer : List ℕ
  headerReceived : Bool
deriving DecidableEq, Repr

/-- The pre-decision `socket.on('data')` handler of
`handleIncomingConnection`: accumulate the buffer; once a `0x00` byte is
found, parse the prefix as the header (`parseHeader` models `JSON.parse`),
keep everything after the delimiter, store the pending offer —
unconditionally overwriting any previous one — emit `transferRequest` and
pause the socket; on a parse failure end the connection. -/
def connData (parseHeader : List ℕ → Option TransferInfo) (sock : ℕ)
    (pending : Option Pending) (st : ConnState) (chunk : List ℕ) :
    Option Pending × ConnState × List Event × List SockAction :=
  let buffer := st.buffer ++ chunk
  if st.headerReceived then (pending, { st with buffer := buffer }, [], [])
  else
    match buffer.findIdx? (· = 0) with
    | none => (pending, { buffer := buffer, headerReceived := false }, [], [])
    | some i =>
        let headerBytes := buffer.take i
        let rest := buffer.drop (i + 1)
        match parseHeader headerBytes with
        | some info =>
            (some ⟨sock, info, rest⟩,
             { buffer := rest, headerReceived := true },
             [Event.transferRequest info.senderEmail info.fileName info.fileSize
                info.transferId],
             [SockAction.pause sock])
        | none =>
            (pending, { buffer := rest, headerReceived := false }, [],
             [SockAction.close sock])

/-- An entry of `this.activeTransfers` (the fields `cancelTransfer` uses). -/
structure ActiveEntry where
  filePath : String
  totalSize : ℕ
deriving DecidableEq, Repr

/-- Service-level state of `FileTransfer`. -/
structure ServiceState where
  receivePath : String
  pendingTransfer : Option Pending
  activeTransfers : List (String × ActiveEntry)
deriving DecidableEq, Repr

/-- `path.join(a, b)` on the receive path. -/
def pathJoin (a b : String) : String := a ++ "/" ++ b

/-- `JSON.stringify({accepted: b})`. -/
def ackString (b : Bool) : String :=
  if b then "\x7b\"accepted\":true\x7d" else "\x7b\"accepted\":false\x7d"

/-- `FileTransfer.acceptTransfer(transferId)`: fails (returning `false`,
changing nothing) unless an offer is pending with exactly this id; on
success writes the `{accepted:true}` ack plus the NUL delimiter, registers
the active transfer, writes the buffered offer-window bytes (one progress
event if non-empty), resumes the socket and clears the pending slot. -/
def acceptTransfer (st : ServiceState) (transferId : String) :
    Bool × ServiceState × List Event × List SockAction :=
  match st.pendingTransfer with
  | none => (false, st, [], [])
  | some p =>
      if p.transferInfo.transferId ≠ transferId then (false, st, [], [])
      else
        let filePath := pathJoin st.receivePath p.transferInfo.fileName
        let init := acceptInit p.transferInfo p.buffer
        (true,
         { st with
            pendingTransfer := none,
            activeTransfers := mapSet transferId
              ⟨filePath, p.transferInfo.fileSize⟩ st.activeTransfers },
         init.2,
         [SockAction.write p.sock (ackString true ++ "\x00"),
          SockAction.resume p.sock])

/-- `FileTransfer.rejectTransfer(transferId)`: fails unless an offer is
pending with exactly this id; on success writes the `{accepted:false}` ack
plus the NUL delimiter, ends the connection and clears the pending slot. -/
def rejectTransfer (st : ServiceState) (transferId : String) :
    Bool × ServiceState × List SockAction :=
  match st.pendingTransfer with
  | none => (false, st, [])
  | some p =>
      if p.transferInfo.transferId ≠ transferId then (false, st, [])
      else
        (true, { st with pendingTransfer := none },
         [SockAction.write p.sock (ackString false ++ "\x00"),
          SockAction.close p.sock])

set_option linter.unusedVariables false in
/-- `FileTransfer.cancelTransfer(transferId)`: if the id is in
`activeTransfers`, close the stream, attempt `fs.unlinkSync` on the partial
file — the surrounding `try { } catch { }` swallows every error, so
`unlinkResult` does not influence the result — remove the id, emit
`transferCancelled` and return `true`; otherwise return `false`. -/
def cancelTransfer (st : ServiceState) (transferId : String)
    (unlinkResult : Except FsErr Unit) :
    Bool × ServiceState × List Event × List FsAction :=
  match st.activeTransfers.lookup transferId with
  | some entry =>
      (true,
       { st with activeTransfers :=
          st.activeTransfers.filter fun q => q.1 ≠ transferId },
       [Event.transferCancelled transferId],
       [FsAction.unlink entry.filePath])
  | none => (false, st, [], [])

/-- Host commands on the transfer service. -/
inductive Cmd where
  | accept (transferId : String)
  | reject (transferId : String)
  | cancel (transferId : String) (unlinkResult : Except FsErr Unit)

/-- Run one host command, returning the socket actions it performs. -/
def runCmd (st : ServiceState) : Cmd → ServiceState × List SockAction
  | Cmd.accept tid => let r := acceptTransfer st tid; (r.2.1, r.2.2.2)
  | Cmd.reject tid => let r := rejectTransfer st tid; (r.2.1, r.2.2)
  | Cmd.cancel tid u => let r := cancelTransfer st tid u; (r.2.1, [])

/-- Run a list of host commands, accumulating all socket actions. -/
def runCmds : ServiceState → List Cmd → ServiceState × List SockAction
  | st, [] => (st, [])
  | st, c :: cs =>
      let r := runCmd st c
      let rest := runCmds r.1 cs
      (rest.1, r.2 ++ rest.2)

/-- The socket identifier an action targets. -/
def SockAction.target : SockAction → ℕ
  | SockAction.write s _ => s
  | SockAction.close s => s
  | SockAction.pause s => s
  | SockAction.resume s => s

/-- How many `sendComplete` events a trace contains. -/
def sendCompleteCount (evs : List Event) : ℕ :=
  (evs.filter fun e => match e with
    | Event.sendComplete _ _ => true
    | _ => false).length

/-- The cumulative `receivedBytes` values at which the receiver emits
progress events: the buffered offer-window write (when non-empty), then the
running totals over the data chunks. -/
def recvBytesList (leftover : List ℕ) (chunks : List (List ℕ)) : List ℕ :=
  (if 0 < leftover.length then [leftover.length] else [])
    ++ cumList leftover.length (chunks.map List.length)

/-- The progress events of a trace are well-formed for a transfer of
declared size `declaredSize`: every triple carries that total and the
`Math.round` value, and the values are integers, non-decreasing and in
`[0, 100]`. -/
def ProgressOK (declaredSize : ℕ) (evs : List Event) : Prop :=
  (∀ p ∈ progressTriples evs,
      p.2.1 = declaredSize ∧ p.2.2 = progressValue p.1 declaredSize) ∧
  ∃ l : List ℤ,
    (progressTriples evs).map (fun p => p.2.2) = l.map some ∧
    l.Chain' (· ≤ ·) ∧ ∀ n ∈ l, 0 ≤ n ∧ n ≤ 100

end Transfer

namespace Discovery

/-- `DEVICE_TIMEOUT` (milliseconds). -/
def DEVICE_TIMEOUT : ℤ := 10000

/-- A record of the device table (`this.devices`). -/
structure DeviceInfo where
  deviceId : String
  deviceName : String
  email : String
  ip : String
  lastSeen : ℤ
deriving DecidableEq, Repr

/-- Events emitted by `DeviceDiscovery`. -/
inductive DEvent where
  | deviceFound (info : DeviceInfo)
  | deviceLost (info : DeviceInfo)
  | devicesUpdated (devices : List DeviceInfo)
deriving DecidableEq, Repr

/-- Service-level state of `DeviceDiscovery`: the insertion-ordered device
table (a JavaScript `Map`) and the own device id. -/
structure DiscoveryState where
  devices : List (String × DeviceInfo)
  myDeviceId : String
deriving DecidableEq, Repr

/-- `getDeviceList()`: the values of the device table in order. -/
def getDeviceList (st : DiscoveryState) : List DeviceInfo :=
  st.devices.map Prod.snd

/-- The result of `JSON.parse` on an inbound datagram: either a parse
failure or a parsed object with its `type`/identity fields. -/
inductive Datagram where
  | malformed
  | parsed (type_ deviceId deviceName email : String)
deriving DecidableEq, Repr

/-- `DeviceDiscovery.handleMessage(msg, rinfo)`: silently drop a datagram
that fails to parse, has `type ≠ "presence"`, or carries the own device id;
otherwise upsert the record (with `ip` from `rinfo.address` and
`lastSeen = Date.now()`), emit `deviceFound` only when the id was absent,
and always emit a `devicesUpdated` snapshot. -/
def handleMessage (st : DiscoveryState) (d : Datagram) (rinfoAddress : String)
    (now : ℤ) : DiscoveryState × List DEvent :=
  match d with
  | Datagram.malformed => (st, [])
  | Datagram.parsed type_ deviceId deviceName email =>
      if type_ ≠ "presence" then (st, [])
      else if deviceId = st.myDeviceId then (st, [])
      else
        let info : DeviceInfo :=
          ⟨deviceId, deviceName, email, rinfoAddress, now⟩
        let isNew := (st.devices.lookup deviceId).isNone
        let st₂ : DiscoveryState := { st with devices := mapSet deviceId info st.devices }
        (st₂,
         (if isNew then [DEvent.deviceFound info] else []) ++
           [DEvent.devicesUpdated (getDeviceList st₂)])

/-- Whether a table entry is stale at time `now`
(`now - info.lastSeen > DEVICE_TIMEOUT`). -/
def stale (now : ℤ) (q : String × DeviceInfo) : Prop :=
  DEVICE_TIMEOUT < now - q.2.lastSeen

instance (now : ℤ) (q : String × DeviceInfo) : Decidable (stale now q) := by
  unfold stale; infer_instance

/-- `DeviceDiscovery.cleanupStaleDevices()`: delete every entry whose
`lastSeen` is more than `DEVICE_TIMEOUT` old, emitting `deviceLost` for each
in table order, and emit one `devicesUpdated` snapshot exactly when
something was deleted. -/
def cleanupStaleDevices (st : DiscoveryState) (now : ℤ) :
    DiscoveryState × List DEvent :=
  let removed := st.devices.filter fun q => decide (stale now q)
  let st₂ : DiscoveryState :=
    { st with devices := st.devices.filter fun q => ! decide (stale now q) }
  (st₂,
   removed.map (fun q => DEvent.deviceLost q.2) ++
     (if removed.isEmpty then [] else [DEvent.devicesUpdated (getDeviceList st₂)]))

/-- One presence message as seen by the receiver: its identity fields, the
datagram source address, and the arrival time. -/
structure PresenceMsg where
  deviceId : String
  deviceName : String
  email : String
  address : String
  now : ℤ
deriving DecidableEq, Repr

/-- Feed a list of presence messages through `handleMessage`, accumulating
events. -/
def runPresence : DiscoveryState × List DEvent → List PresenceMsg →
    DiscoveryState × List DEvent
  | p, [] => p
  | (st, evs), m :: ms =>
      let q := handleMessage st (Datagram.parsed "presence" m.deviceId m.deviceName m.email)
        m.address m.now
      runPresence (q.1, evs ++ q.2) ms

/-- One step of the discovery service: an inbound datagram or a sweep
tick. -/
inductive DStep where
  | msg (d : Datagram) (rinfoAddress : String) (now : ℤ)
  | sweep (now : ℤ)

/-- Run one discovery step. -/
def runDStep (st : DiscoveryState) : DStep → DiscoveryState × List DEvent
  | DStep.msg d a now => handleMessage st d a now
  | DStep.sweep now => cleanupStaleDevices st now

/-- Run a list of discovery steps. -/
def runDSteps : DiscoveryState → List DStep → DiscoveryState
  | st, [] => st
  | st, s :: ss => runDSteps (runDStep st s).1 ss

/-- One entry of `os.networkInterfaces()` (the address and netmask already
split on `'.'` into their octets, as the code does). -/
structure NetIface where
  internal : Bool
  family : String
  address : List ℕ
  netmask : List ℕ
deriving DecidableEq, Repr

/-- One octet of the broadcast address: `octet | (~mask & 255)`. For a
JavaScript number `m`, `~m & 255 = 255 - m % 256` (two's complement on the
low byte; an out-of-range index, `mask[i] === undefined`, coerces to `0`
under `ToInt32`, giving `255`). -/
def broadcastOctet (octet m : ℕ) : ℕ := Nat.lor octet (255 - m % 256)

/-- `ip.map((octet, i) => octet | (~mask[i] & 255))`. -/
def broadcastOf (ip mask : List ℕ) : List ℕ :=
  (List.range ip.length).map fun i =>
    broadcastOctet (ip.getD i 0) (mask.getD i 0)

/-- `DeviceDiscovery.getBroadcastAddresses()`: the broadcast address of
every non-internal IPv4 interface, in interface order; the limited
broadcast address `255.255.255.255` when none exists. -/
def getBroadcastAddresses (interfaces : List (String × List NetIface)) :
    List (List ℕ) :=
  let addresses := (interfaces.map Prod.snd).flatten.filterMap fun iface =>
    if iface.internal || iface.family ≠ "IPv4" then none
    else some (broadcastOf iface.address iface.netmask)
  if addresses.isEmpty then [[255, 255, 255, 255]] else addresses

/-- JavaScript truthiness of `this.myEmail` (`null` or the empty string are
falsy). -/
def truthyEmail : Option String → Bool
  | none => false
  | some e => e ≠ ""

/-- The serialized presence message of one broadcast tick. -/
structure PresenceOut where
  type_ : String
  deviceId : String
  deviceName : String
  email : String
  timestamp : ℤ
deriving DecidableEq, Repr

/-- The `broadcast` closure of `startBroadcasting`: a no-op unless the
socket exists and `myEmail` is truthy; otherwise send the presence message
to every address from `getBroadcastAddresses()`. -/
def broadcastTick (socketPresent : Bool) (myDeviceId myDeviceName : String)
    (myEmail : Option String) (now : ℤ)
    (interfaces : List (String × List NetIface)) :
    List (PresenceOut × List ℕ) :=
  if !socketPresent || !truthyEmail myEmail then []
  else
    let msg : PresenceOut :=
      ⟨"presence", myDeviceId, myDeviceName, myEmail.getD "", now⟩
    (getBroadcastAddresses interfaces).map fun addr => (msg, addr)

/-- The `deviceLost` events of a trace, in order. -/
def lostList (evs : List DEvent) : List DEvent :=
  evs.filter fun e => match e with
    | DEvent.deviceLost _ => true
    | _ => false

/-- How many `devicesUpdated` snapshots a trace contains. -/
def updatedCount (evs : List DEvent) : ℕ :=
  (evs.filter fun e => match e with
    | DEvent.devicesUpdated _ => true
    | _ => false).length

/-- How many `deviceFound` notifications a trace contains. -/
def foundCount (evs : List DEvent) : ℕ :=
  (evs.filter fun e => match e with
    | DEvent.deviceFound _ => true
    | _ => false).length

/-- The device table never lists the instance's own device id. -/
def SelfFree (st : DiscoveryState) : Prop :=
  ∀ info ∈ getDeviceList st, info.deviceId ≠ st.myDeviceId

end Discovery

/-! ### Arithmetic facts about the progress computation -/

lemma jsRound_nonneg {q : ℚ} (h : 0 ≤ q) : 0 ≤ jsRound q := by
  unfold jsRound
  exact Int.floor_nonneg.mpr (by linarith)

lemma jsRound_le_100 {q : ℚ} (h : q ≤ 100) : jsRound q ≤ 100 := by
  unfold jsRound
  have h2 : ⌊q + 1 / 2⌋ < (101 : ℤ) := by
    rw [Int.floor_lt]
    push_cast
    linarith
  omega

lemma jsRound_mono {q r : ℚ} (h : q ≤ r) : jsRound q ≤ jsRound r := by
  unfold jsRound
  exact Int.floor_le_floor (by linarith)

lemma progressValue_some {bytes total : ℕ} (h : 0 < total) :
    progressValue bytes total = some (jsRound ((bytes : ℚ) / total * 100)) := by
  unfold progressValue
  rw [if_neg (Nat.pos_iff_ne_zero.mp h)]

lemma progressFrac_le_100 {bytes total : ℕ} (hpos : 0 < total) (hle : bytes ≤ total) :
    (bytes : ℚ) / total * 100 ≤ 100 := by
  have h1 : (bytes : ℚ) / total ≤ 1 := by
    rw [div_le_one (by positivity)]
    exact_mod_cast hle
  linarith

lemma progressFrac_nonneg (bytes total : ℕ) : 0 ≤ (bytes : ℚ) / total * 100 := by
  positivity

lemma progressFrac_mono {b₁ b₂ : ℕ} (total : ℕ) (h : b₁ ≤ b₂) :
    (b₁ : ℚ) / total * 100 ≤ (b₂ : ℚ) / total * 100 := by
  rcases Nat.eq_zero_or_pos total with h0 | h0
  · subst h0; norm_num
  · have hb : (b₁ : ℚ) ≤ (b₂ : ℚ) := by exact_mod_cast h
    have hd : (b₁ : ℚ) / total ≤ (b₂ : ℚ) / total := by gcongr
    linarith

/-! ### The cumulative byte counts of a chunked stream -/

lemma cumList_chain (start : ℕ) (ns : List ℕ) :
    List.Chain' (· ≤ ·) (start :: cumList start ns) := by
  induction ns generalizing start with
  | nil => exact List.chain'_singleton start
  | cons n ns ih =>
      rw [cumList, List.chain'_cons]
      exact ⟨Nat.le_add_right start n, ih (start + n)⟩

lemma cumList_chain' (start : ℕ) (ns : List ℕ) :
    List.Chain' (· ≤ ·) (cumList start ns) :=
  (cumList_chain start ns).tail

lemma cumList_le (start : ℕ) (ns : List ℕ) :
    ∀ b ∈ cumList start ns, b ≤ start + ns.sum := by
  induction ns generalizing start with
  | nil => intro b hb; cases hb
  | cons n ns ih =>
      intro b hb
      rw [cumList, List.mem_cons] at hb
      rcases hb with rfl | hb
      · simp only [List.sum_cons]
        omega
      · have := ih (start + n) b hb
        simp only [List.sum_cons]
        omega

/-! ### Association-list facts about the JavaScript-Map model -/

lemma lookup_mapSet {α : Type} (k : String) (v : α) (l : List (String × α)) :
    (mapSet k v l).lookup k = some v := by
  induction l with
  | nil => simp [mapSet, List.lookup]
  | cons q rest ih =>
      obtain ⟨k₀, v₀⟩ := q
      rw [mapSet]
      split
      · simp [List.lookup]
      · next h =>
          rw [List.lookup_cons]
          have hbeq : (k == k₀) = false := by
            simp only [beq_eq_false_iff_ne, ne_eq]
            exact fun hk => h hk.symm
          rw [hbeq]
          exact ih

lemma mem_keys_mapSet {α : Type} {a k : String} {v : α} {l : List (String × α)} :
    a ∈ (mapSet k v l).map Prod.fst ↔ a = k ∨ a ∈ l.map Prod.fst := by
  induction l with
  | nil => simp [mapSet]
  | cons q rest ih =>
      obtain ⟨k₀, v₀⟩ := q
      rw [mapSet]
      split
      · next h => subst h; simp
      · simp only [List.map_cons, List.mem_cons, ih]
        tauto

lemma nodup_keys_mapSet {α : Type} {k : String} {v : α} {l : List (String × α)}
    (h : (l.map Prod.fst).Nodup) : ((mapSet k v l).map Prod.fst).Nodup := by
  induction l with
  | nil => simp [mapSet]
  | cons q rest ih =>
      obtain ⟨k₀, v₀⟩ := q
      rw [List.map_cons, List.nodup_cons] at h
      rw [mapSet]
      split
      · next he =>
          subst he
          simpa using h
      · next he =>
          rw [List.map_cons, List.nodup_cons]
          refine ⟨?_, ih h.2⟩
          rw [mem_keys_mapSet]
          rintro (rfl | hm)
          · exact he rfl
          · exact h.1 hm

lemma countP_key_not_mem {α : Type} {k : String} {l : List (String × α)}
    (h : k ∉ l.map Prod.fst) :
    (l.countP fun q => decide (q.1 = k)) = 0 := by
  rw [List.countP_eq_zero]
  intro q hq hk
  exact h (List.mem_map.mpr ⟨q, hq, by simpa using hk⟩)

lemma countP_key_mapSet {α : Type} {k : String} {v : α} {l : List (String × α)}
    (h : (l.map Prod.fst).Nodup) :
    ((mapSet k v l).countP fun q => decide (q.1 = k)) = 1 := by
  induction l with
  | nil => simp [mapSet]
  | cons q rest ih =>
      obtain ⟨k₀, v₀⟩ := q
      rw [List.map_cons, List.nodup_cons] at h
      rw [mapSet]
      split
      · next he =>
          subst he
          rw [List.countP_cons]
          simp [countP_key_not_mem h.1]
      · next he =>
          rw [List.countP_cons, ih h.2]
          simp [he]

lemma mem_values_mapSet {α : Type} {w : α} {k : String} {v : α}
    {l : List (String × α)} (h : w ∈ (mapSet k v l).map Prod.snd) :
    w ∈ l.map Prod.snd ∨ w = v := by
  induction l with
  | nil =>
      right
      simpa [mapSet] using h
  | cons q rest ih =>
      obtain ⟨k₀, v₀⟩ := q
      rw [mapSet] at h
      split at h
      · rcases List.mem_cons.mp h with rfl | hm
        · exact Or.inr rfl
        · exact Or.inl (List.mem_cons.mpr (Or.inr hm))
      · rcases List.mem_cons.mp h with rfl | hm
        · exact Or.inl (List.mem_cons.mpr (Or.inl rfl))
        · rcases ih hm with hv | hv
          · exact Or.inl (List.mem_cons.mpr (Or.inr hv))
          · exact Or.inr hv

namespace Transfer

/-! ### The shape of a progress-event trace -/

lemma progressOK_of_bytesList {size : ℕ} {bl : List ℕ} {evs : List Event}
    (hpos : 0 < size)
    (htr : progressTriples evs = bl.map fun b => (b, size, progressValue b size))
    (hchain : bl.Chain' (· ≤ ·))
    (hle : ∀ b ∈ bl, b ≤ size) : ProgressOK size evs := by
  constructor
  · intro p hp
    rw [htr] at hp
    obtain ⟨b, _, rfl⟩ := List.mem_map.mp hp
    exact ⟨rfl, rfl⟩
  · refine ⟨bl.map (fun b : ℕ => jsRound ((b : ℚ) / size * 100)), ?_, ?_, ?_⟩
    · rw [htr]
      simp only [List.map_map]
      exact List.map_congr_left fun b _ => progressValue_some hpos
    · rw [List.chain'_map]
      exact hchain.imp fun a b hab => jsRound_mono (progressFrac_mono size hab)
    · intro n hn
      obtain ⟨b, hb, rfl⟩ := List.mem_map.mp hn
      exact ⟨jsRound_nonneg (progressFrac_nonneg b size),
        jsRound_le_100 (progressFrac_le_100 hpos (hle b hb))⟩

lemma progressTriples_append (a b : List Event) :
    progressTriples (a ++ b) = progressTriples a ++ progressTriples b :=
  List.filterMap_append a b _

lemma recvData_fst (info : TransferInfo) (filePath : String) (st : ActiveRecv)
    (chunk : List ℕ) :
    (recvData info filePath st chunk).1.receivedBytes
        = st.receivedBytes + chunk.length := by
  simp only [recvData]
  split <;> rfl

lemma recvData_triples (info : TransferInfo) (filePath : String) (st : ActiveRecv)
    (chunk : List ℕ) :
    progressTriples (recvData info filePath st chunk).2
      = [(st.receivedBytes + chunk.length, info.fileSize,
          progressValue (st.receivedBytes + chunk.length) info.fileSize)] := by
  simp only [recvData]
  split <;> simp [progressTriples]

lemma recvClose_triples (info : TransferInfo) (filePath : String) (st : ActiveRecv) :
    progressTriples (recvClose info filePath st) = [] := by
  unfold recvClose
  split <;> simp [progressTriples]

lemma runChunks_triples (info : TransferInfo) (filePath : String) :
    ∀ (chunks : List (List ℕ)) (st : ActiveRecv) (evs : List Event),
      progressTriples (runChunks info filePath (st, evs) chunks).2
        = progressTriples evs
            ++ (cumList st.receivedBytes (chunks.map List.length)).map
                (fun b => (b, info.fileSize, progressValue b info.fileSize)) := by
  intro chunks
  induction chunks with
  | nil => intro st evs; simp [runChunks, cumList]
  | cons c cs ih =>
      intro st evs
      rw [runChunks]
      rw [ih]
      rw [progressTriples_append, recvData_triples, recvData_fst]
      simp [cumList]

lemma acceptInit_fst (info : TransferInfo) (leftover : List ℕ) :
    (acceptInit info leftover).1 = ⟨⟨leftover, false⟩, leftover.length, true⟩ := by
  unfold acceptInit
  split
  · rfl
  · next h =>
      have hnil : leftover = [] := by
        cases leftover with
        | nil => rfl
        | cons a l => simp at h
      subst hnil
      rfl

lemma acceptInit_triples (info : TransferInfo) (leftover : List ℕ) :
    progressTriples (acceptInit info leftover).2
      = if 0 < leftover.length then
          [(leftover.length, info.fileSize,
            progressValue leftover.length info.fileSize)]
        else [] := by
  unfold acceptInit
  split <;> simp_all [progressTriples]

lemma recvEventsClosed_triples (info : TransferInfo) (filePath : String)
    (leftover : List ℕ) (chunks : List (List ℕ)) :
    progressTriples (recvEventsClosed info filePath leftover chunks)
      = (recvBytesList leftover chunks).map
          (fun b => (b, info.fileSize, progressValue b info.fileSize)) := by
  unfold recvEventsClosed recvRun
  rw [progressTriples_append, recvClose_triples, List.append_nil]
  have h2 : (acceptInit info leftover)
      = ((acceptInit info leftover).1, (acceptInit info leftover).2) := rfl
  rw [h2, runChunks_triples, acceptInit_triples, acceptInit_fst]
  unfold recvBytesList
  split <;> simp

lemma sendChunks_triples (sock : ℕ) (totalSize : ℕ) (transferId : String) :
    ∀ (chunks : List (List ℕ)) (sent : ℕ) (evs : List Event)
      (acts : List SockAction),
      progressTriples (sendChunks sock totalSize transferId (sent, evs, acts) chunks).2.1
        = progressTriples evs
            ++ (cumList sent (chunks.map List.length)).map
                (fun b => (b, totalSize, progressValue b totalSize)) := by
  intro chunks
  induction chunks with
  | nil => intro sent evs acts; simp [sendChunks, cumList]
  | cons c cs ih =>
      intro sent evs acts
      rw [sendChunks]
      rw [ih]
      rw [progressTriples_append]
      simp [cumList, progressTriples]

lemma streamFile_triples (sock : ℕ) (filePath : String) (totalSize : ℕ)
    (transferId : String) (fileChunks : List (List ℕ)) :
    progressTriples (streamFile sock filePath totalSize transferId fileChunks).1
      = (cumList 0 (fileChunks.map List.length)).map
          (fun b => (b, totalSize, progressValue b totalSize)) := by
  unfold streamFile
  have h : sendChunks sock totalSize transferId (0, [], []) fileChunks
      = ((sendChunks sock totalSize transferId (0, [], []) fileChunks).1,
         (sendChunks sock totalSize transferId (0, [], []) fileChunks).2.1,
         (sendChunks sock totalSize transferId (0, [], []) fileChunks).2.2) := rfl
  rw [progressTriples_append, sendChunks_triples]
  simp [progressTriples]

lemma recvBytesList_chain (leftover : List ℕ) (chunks : List (List ℕ)) :
    (recvBytesList leftover chunks).Chain' (· ≤ ·) := by
  unfold recvBytesList
  split
  · exact cumList_chain leftover.length (chunks.map List.length)
  · exact (cumList_chain leftover.length (chunks.map List.length)).tail

lemma recvBytesList_le (leftover : List ℕ) (chunks : List (List ℕ)) :
    ∀ b ∈ recvBytesList leftover chunks,
      b ≤ leftover.length + (chunks.map List.length).sum := by
  intro b hb
  unfold recvBytesList at hb
  rw [List.mem_append] at hb
  rcases hb with hb | hb
  · split at hb
    · rw [List.mem_singleton] at hb
      omega
    · cases hb
  · exact cumList_le leftover.length (chunks.map List.length) b hb

/-! ### Claim theorems -/

/-- Claim C1: the spec requires exactly one completion event per accepted
transfer, but the code double-fires: with declared size 1, after one 1-byte
chunk the data handler emits `transferComplete` (threshold reached), and
the close handler then emits `transferComplete` a second time, since
`receivedBytes >= fileSize` still holds on close and no flag prevents the
repeat. The trace of the accepted run therefore contains two completion
events. -/
theorem claim_C1_double_completion :
    completeCount (recvEventsClosed ⟨"t1", "f.bin", 1, "s@x"⟩
        "Downloads/Fileway/f.bin" [] [[7]]) = 2
      ∧ sendCompleteCount
          (streamFile 0 "C:/src/f.bin" 1 "t1" [[7]]).1 = 1 := by
  exact ⟨rfl, rfl⟩

/-- Claim C2 (counterexample): progress values can exceed 100. A receiver
with declared size 1 that is delivered a 2-byte chunk emits a progress
event with value `round(2/1*100) = 200 > 100`, so the claim that every
emitted progress value lies in `[0, 100]` is false as stated. -/
theorem claim_C2_counterexample :
    progressTriples (recvRun ⟨"t1", "f.bin", 1, "s@x"⟩
        "Downloads/Fileway/f.bin" [] [[0, 0]]).2
      = [(2, 1, some 200)] ∧ ¬ (200 : ℤ) ≤ 100 := by
  refine ⟨?_, by norm_num⟩
  have h : progressValue 2 1 = some 200 := by
    norm_num [progressValue, jsRound]
  rw [show progressTriples (recvRun ⟨"t1", "f.bin", 1, "s@x"⟩
      "Downloads/Fileway/f.bin" [] [[0, 0]]).2
    = [(2, 1, progressValue 2 1)] from rfl, h]

/-- Claim C2 (amended): every emitted progress value is the integer
`round(bytes/declaredSize*100)` with the declared size as denominator, and
across the successive progress events of one transfer the values are
non-decreasing, may repeat, and lie in `[0, 100]` — provided the declared
size is positive and the delivered bytes do not exceed it (which the
sender's own chunking always satisfies); a receiver fed more bytes than
declared emits values above 100. -/
theorem claim_C2_progress (info : TransferInfo) (filePath : String)
    (leftover : List ℕ) (chunks : List (List ℕ))
    (sock : ℕ) (sendPath transferId : String) (totalSize : ℕ)
    (fileChunks : List (List ℕ))
    (hpos : 0 < info.fileSize)
    (hle : leftover.length + (chunks.map List.length).sum ≤ info.fileSize)
    (hspos : 0 < totalSize)
    (hfit : (fileChunks.map List.length).sum = totalSize) :
    ProgressOK info.fileSize (recvEventsClosed info filePath leftover chunks)
      ∧ ProgressOK totalSize
          (streamFile sock sendPath totalSize transferId fileChunks).1 := by
  constructor
  · refine progressOK_of_bytesList hpos
      (recvEventsClosed_triples info filePath leftover chunks)
      (recvBytesList_chain leftover chunks) ?_
    intro b hb
    exact le_trans (recvBytesList_le leftover chunks b hb) hle
  · refine progressOK_of_bytesList hspos
      (streamFile_triples sock sendPath totalSize transferId fileChunks)
      (cumList_chain' 0 (fileChunks.map List.length)) ?_
    intro b hb
    have := cumList_le 0 (fileChunks.map List.length) b hb
    omega

/-- Witness for the amended C2 theorem at a concrete transfer: declared
size 2, a 1-byte buffered leftover and a 1-byte chunk on the receive side;
a 1-byte file on the send side. -/
theorem claim_C2_progress_witness :
    ProgressOK 2 (recvEventsClosed ⟨"t1", "f.bin", 2, "s@x"⟩
        "Downloads/Fileway/f.bin" [5] [[6]])
      ∧ ProgressOK 1 (streamFile 0 "C:/src/g.bin" 1 "t2" [[9]]).1 := by
  exact claim_C2_progress ⟨"t1", "f.bin", 2, "s@x"⟩ "Downloads/Fileway/f.bin"
    [5] [[6]] 0 "C:/src/g.bin" "t2" 1 [[9]]
    (by norm_num) (by norm_num) (by norm_num) (by norm_num)

/-- Claim C3 (counterexample): a permission-denied failure of
`fs.unlinkSync` during cancel is NOT surfaced to the caller — the blanket
`catch` swallows it, and `cancelTransfer` still returns `true` with exactly
the same state change and events as a successful deletion. -/
theorem claim_C3_counterexample :
    cancelTransfer
        ⟨"Downloads/Fileway", none,
          [("t1", ⟨"Downloads/Fileway/f.bin", 1048576⟩)]⟩
        "t1" (Except.error FsErr.eperm)
      = (true, ⟨"Downloads/Fileway", none, []⟩,
         [Event.transferCancelled "t1"],
         [FsAction.unlink "Downloads/Fileway/f.bin"]) := by
  rfl

/-- Claim C3 (amended): `cancelTransfer(transferId)` returns `true` iff the
id is in the active-transfer map; on success it removes the id, emits one
`transferCancelled` event and attempts deletion of the partial file, but
every deletion failure — missing file or otherwise — is swallowed and the
result does not depend on the deletion outcome; on an inactive id it
returns `false` and changes nothing. -/
theorem claim_C3_cancel (st : ServiceState) (tid : String)
    (u : Except FsErr Unit) :
    ((cancelTransfer st tid u).1 = true ↔
      (st.activeTransfers.lookup tid).isSome = true)
    ∧ cancelTransfer st tid u = cancelTransfer st tid (Except.ok ())
    ∧ (∀ entry, st.activeTransfers.lookup tid = some entry →
        cancelTransfer st tid u
          = (true,
             { st with activeTransfers :=
                st.activeTransfers.filter fun q => q.1 ≠ tid },
             [Event.transferCancelled tid], [FsAction.unlink entry.filePath]))
    ∧ (st.activeTransfers.lookup tid = none →
        cancelTransfer st tid u = (false, st, [], []))
    ∧ (∀ q ∈ (cancelTransfer st tid u).2.1.activeTransfers,
        (st.activeTransfers.lookup tid).isSome = true → q.1 ≠ tid) := by
  unfold cancelTransfer
  cases h : st.activeTransfers.lookup tid with
  | some entry =>
      refine ⟨by simp, rfl, ?_, by simp, ?_⟩
      · intro e he
        cases he
        rfl
      · intro q hq _
        simp only [List.mem_filter] at hq
        simpa using hq.2
  | none =>
      refine ⟨by simp, rfl, ?_, fun _ => rfl, ?_⟩
      · intro e he
        simp at he
      · intro q hq hs
        simp at hs

/-- Witness for the amended C3 theorem: cancelling an active transfer while
`fs.unlinkSync` reports `EBUSY` still reports success and removes the id. -/
theorem claim_C3_cancel_witness :
    cancelTransfer ⟨"R", none, [("t9", ⟨"R/g.bin", 7⟩)]⟩ "t9"
        (Except.error (FsErr.other "EBUSY"))
      = (true, ⟨"R", none, []⟩, [Event.transferCancelled "t9"],
         [FsAction.unlink "R/g.bin"]) := by
  have h := (claim_C3_cancel ⟨"R", none, [("t9", ⟨"R/g.bin", 7⟩)]⟩ "t9"
    (Except.error (FsErr.other "EBUSY"))).2.2.1 ⟨"R/g.bin", 7⟩ rfl
  rw [h]
  rfl

lemma acceptTransfer_none {st : ServiceState} (tid : String)
    (hp : st.pendingTransfer = none) :
    acceptTransfer st tid = (false, st, [], []) := by
  unfold acceptTransfer
  rw [hp]

lemma acceptTransfer_mismatch {st : ServiceState} {p : Pending} (tid : String)
    (hp : st.pendingTransfer = some p)
    (h : p.transferInfo.transferId ≠ tid) :
    acceptTransfer st tid = (false, st, [], []) := by
  unfold acceptTransfer
  rw [hp]
  exact if_pos h

lemma acceptTransfer_match {st : ServiceState} {p : Pending} (tid : String)
    (hp : st.pendingTransfer = some p)
    (h : p.transferInfo.transferId = tid) :
    acceptTransfer st tid
      = (true,
         { st with
            pendingTransfer := none,
            activeTransfers := mapSet tid
              ⟨pathJoin st.receivePath p.transferInfo.fileName,
               p.transferInfo.fileSize⟩ st.activeTransfers },
         (acceptInit p.transferInfo p.buffer).2,
         [SockAction.write p.sock (ackString true ++ "\x00"),
          SockAction.resume p.sock]) := by
  unfold acceptTransfer
  rw [hp]
  exact if_neg fun hne => hne h

lemma rejectTransfer_none {st : ServiceState} (tid : String)
    (hp : st.pendingTransfer = none) :
    rejectTransfer st tid = (false, st, []) := by
  unfold rejectTransfer
  rw [hp]

lemma rejectTransfer_mismatch {st : ServiceState} {p : Pending} (tid : String)
    (hp : st.pendingTransfer = some p)
    (h : p.transferInfo.transferId ≠ tid) :
    rejectTransfer st tid = (false, st, []) := by
  unfold rejectTransfer
  rw [hp]
  exact if_pos h

lemma rejectTransfer_match {st : ServiceState} {p : Pending} (tid : String)
    (hp : st.pendingTransfer = some p)
    (h : p.transferInfo.transferId = tid) :
    rejectTransfer st tid
      = (true, { st with pendingTransfer := none },
         [SockAction.write p.sock (ackString false ++ "\x00"),
          SockAction.close p.sock]) := by
  unfold rejectTransfer
  rw [hp]
  exact if_neg fun hne => hne h

/-- Claim C8: `acceptTransfer`/`rejectTransfer` return `true` iff an offer
is currently pending and its `transferId` equals the argument; on success
`acceptTransfer` writes `{accepted:true}` plus a NUL byte and resumes the
socket, registering the active transfer and clearing the pending slot,
while `rejectTransfer` writes `{accepted:false}` plus a NUL byte, closes
the connection and discards the pending state; on failure both return
`false` and change nothing. -/
theorem claim_C8_accept_reject (st : ServiceState) (tid : String) :
    ((acceptTransfer st tid).1 = true ↔
      ∃ p, st.pendingTransfer = some p ∧ p.transferInfo.transferId = tid)
    ∧ ((rejectTransfer st tid).1 = true ↔
      ∃ p, st.pendingTransfer = some p ∧ p.transferInfo.transferId = tid)
    ∧ (∀ p, st.pendingTransfer = some p → p.transferInfo.transferId = tid →
        acceptTransfer st tid
          = (true,
             { st with
                pendingTransfer := none,
                activeTransfers := mapSet tid
                  ⟨pathJoin st.receivePath p.transferInfo.fileName,
                   p.transferInfo.fileSize⟩ st.activeTransfers },
             (acceptInit p.transferInfo p.buffer).2,
             [SockAction.write p.sock (ackString true ++ "\x00"),
              SockAction.resume p.sock])
          ∧ rejectTransfer st tid
            = (true, { st with pendingTransfer := none },
               [SockAction.write p.sock (ackString false ++ "\x00"),
                SockAction.close p.sock]))
    ∧ ((acceptTransfer st tid).1 = false →
        acceptTransfer st tid = (false, st, [], []))
    ∧ ((rejectTransfer st tid).1 = false →
        rejectTransfer st tid = (false, st, [])) := by
  refine ⟨⟨?_, ?_⟩, ⟨?_, ?_⟩, ?_, ?_, ?_⟩
  · intro h
    rcases hps : st.pendingTransfer with _ | p
    · rw [acceptTransfer_none tid hps] at h
      exact Bool.noConfusion h
    · by_cases hid : p.transferInfo.transferId = tid
      · exact ⟨p, rfl, hid⟩
      · rw [acceptTransfer_mismatch tid hps hid] at h
        exact Bool.noConfusion h
  · rintro ⟨q, hq, hid⟩
    rw [acceptTransfer_match tid hq hid]
  · intro h
    rcases hps : st.pendingTransfer with _ | p
    · rw [rejectTransfer_none tid hps] at h
      exact Bool.noConfusion h
    · by_cases hid : p.transferInfo.transferId = tid
      · exact ⟨p, rfl, hid⟩
      · rw [rejectTransfer_mismatch tid hps hid] at h
        exact Bool.noConfusion h
  · rintro ⟨q, hq, hid⟩
    rw [rejectTransfer_match tid hq hid]
  · intro q hq hid
    exact ⟨acceptTransfer_match tid hq hid, rejectTransfer_match tid hq hid⟩
  · intro h
    rcases hps : st.pendingTransfer with _ | p
    · exact acceptTransfer_none tid hps
    · by_cases hid : p.transferInfo.transferId = tid
      · rw [acceptTransfer_match tid hps hid] at h
        exact Bool.noConfusion h
      · exact acceptTransfer_mismatch tid hps hid
  · intro h
    rcases hps : st.pendingTransfer with _ | p
    · exact rejectTransfer_none tid hps
    · by_cases hid : p.transferInfo.transferId = tid
      · rw [rejectTransfer_match tid hps hid] at h
        exact Bool.noConfusion h
      · exact rejectTransfer_mismatch tid hps hid

/-- Witness for C8: with a pending offer `t8` on socket 3, accepting and
rejecting with the matching id succeed with the specified ack writes. -/
theorem claim_C8_accept_reject_witness :
    acceptTransfer ⟨"R", some ⟨3, ⟨"t8", "g.bin", 4, "e@x"⟩, [1]⟩, []⟩ "t8"
        = (true,
           ⟨"R", none, [("t8", ⟨"R/g.bin", 4⟩)]⟩,
           [Event.transferProgress "t8" 1 4 (progressValue 1 4) "receiving"],
           [SockAction.write 3 (ackString true ++ "\x00"),
            SockAction.resume 3])
      ∧ rejectTransfer ⟨"R", some ⟨3, ⟨"t8", "g.bin", 4, "e@x"⟩, [1]⟩, []⟩ "t8"
          = (true, ⟨"R", none, []⟩,
             [SockAction.write 3 (ackString false ++ "\x00"),
              SockAction.close 3]) := by
  have h := (claim_C8_accept_reject
    ⟨"R", some ⟨3, ⟨"t8", "g.bin", 4, "e@x"⟩, [1]⟩, []⟩ "t8").2.2.1
    ⟨3, ⟨"t8", "g.bin", 4, "e@x"⟩, [1]⟩ rfl rfl
  exact ⟨by rw [h.1]; rfl, by rw [h.2]⟩

lemma runCmd_actions (st : ServiceState) (c : Cmd) :
    ∀ a ∈ (runCmd st c).2, ∃ p, st.pendingTransfer = some p ∧
      a.target = p.sock := by
  cases c with
  | accept tid =>
      intro a ha
      simp only [runCmd] at ha
      rcases hps : st.pendingTransfer with _ | p
      · rw [acceptTransfer_none tid hps] at ha
        cases ha
      · by_cases hid : p.transferInfo.transferId = tid
        · rw [acceptTransfer_match tid hps hid] at ha
          simp only [List.mem_cons, List.not_mem_nil, or_false] at ha
          rcases ha with rfl | rfl
          · exact ⟨p, rfl, rfl⟩
          · exact ⟨p, rfl, rfl⟩
        · rw [acceptTransfer_mismatch tid hps hid] at ha
          cases ha
  | reject tid =>
      intro a ha
      simp only [runCmd] at ha
      rcases hps : st.pendingTransfer with _ | p
      · rw [rejectTransfer_none tid hps] at ha
        cases ha
      · by_cases hid : p.transferInfo.transferId = tid
        · rw [rejectTransfer_match tid hps hid] at ha
          simp only [List.mem_cons, List.not_mem_nil, or_false] at ha
          rcases ha with rfl | rfl
          · exact ⟨p, rfl, rfl⟩
          · exact ⟨p, rfl, rfl⟩
        · rw [rejectTransfer_mismatch tid hps hid] at ha
          cases ha
  | cancel tid u =>
      intro a ha
      simp only [runCmd] at ha
      cases ha

lemma runCmd_pending (st : ServiceState) (c : Cmd) :
    (runCmd st c).1.pendingTransfer = st.pendingTransfer
      ∨ (runCmd st c).1.pendingTransfer = none := by
  cases c with
  | accept tid =>
      simp only [runCmd]
      rcases hps : st.pendingTransfer with _ | p
      · rw [acceptTransfer_none tid hps]
        exact Or.inl hps
      · by_cases hid : p.transferInfo.transferId = tid
        · rw [acceptTransfer_match tid hps hid]
          exact Or.inr rfl
        · rw [acceptTransfer_mismatch tid hps hid]
          exact Or.inl hps
  | reject tid =>
      simp only [runCmd]
      rcases hps : st.pendingTransfer with _ | p
      · rw [rejectTransfer_none tid hps]
        exact Or.inl hps
      · by_cases hid : p.transferInfo.transferId = tid
        · rw [rejectTransfer_match tid hps hid]
          exact Or.inr rfl
        · rw [rejectTransfer_mismatch tid hps hid]
          exact Or.inl hps
  | cancel tid u =>
      simp only [runCmd]
      cases h : st.activeTransfers.lookup tid with
      | some entry =>
          left
          unfold cancelTransfer
          rw [h]
      | none =>
          left
          unfold cancelTransfer
          rw [h]

/-- Claim C10: a second inbound connection whose complete offer header
parses overwrites the single pending-offer slot unconditionally; in the
resulting state, `acceptTransfer`/`rejectTransfer` with the earlier
transfer's id return `false` and change nothing; and no later host command
(accept/reject/cancel, in any order) ever performs a socket action —
in particular no ack write and no resume — on a socket that the state no
longer references as pending, such as the earlier offer's connection. -/
theorem claim_C10_second_offer :
    (∀ (parseHeader : List ℕ → Option TransferInfo) (sock : ℕ)
        (pending : Option Pending) (st : ConnState) (chunk : List ℕ)
        (i : ℕ) (info : TransferInfo),
        st.headerReceived = false →
        (st.buffer ++ chunk).findIdx? (fun b => b = 0) = some i →
        parseHeader ((st.buffer ++ chunk).take i) = some info →
        (connData parseHeader sock pending st chunk).1
          = some ⟨sock, info, (st.buffer ++ chunk).drop (i + 1)⟩)
    ∧ (∀ (st : ServiceState) (p : Pending) (tid : String),
        st.pendingTransfer = some p → p.transferInfo.transferId ≠ tid →
        acceptTransfer st tid = (false, st, [], [])
          ∧ rejectTransfer st tid = (false, st, []))
    ∧ (∀ (s : ℕ) (cmds : List Cmd) (st : ServiceState),
        (∀ p, st.pendingTransfer = some p → p.sock ≠ s) →
        ∀ a ∈ (runCmds st cmds).2, a.target ≠ s) := by
  refine ⟨?_, ?_, ?_⟩
  · intro parseHeader sock pending st chunk i info hrecv hidx hparse
    unfold connData
    rw [hrecv]
    simp only [Bool.false_eq_true, if_false, hidx, hparse]
  · intro st p tid hp hid
    exact ⟨acceptTransfer_mismatch tid hp hid, rejectTransfer_mismatch tid hp hid⟩
  · intro s cmds
    induction cmds with
    | nil =>
        intro st hinv a ha
        cases ha
    | cons c cs ih =>
        intro st hinv a ha
        rw [runCmds] at ha
        rcases List.mem_append.mp ha with ha | ha
        · obtain ⟨p, hp, hap⟩ := runCmd_actions st c a ha
          rw [hap]
          exact hinv p hp
        · refine ih (runCmd st c).1 ?_ a ha
          intro p hp
          rcases runCmd_pending st c with hpe | hpe
          · rw [hpe] at hp
            exact hinv p hp
          · rw [hpe] at hp
            cases hp

/-- Witness for C10: with offer `t1` (socket 1) pending, a second header
(`t2`, socket 2) overwrites the slot; accepting or rejecting `t1` then
fails, and a later accept of `t2` performs no action on socket 1. -/
theorem claim_C10_second_offer_witness :
    (connData (fun _ => some ⟨"t2", "g.bin", 3, "s2@x"⟩) 2
        (some ⟨1, ⟨"t1", "f.bin", 5, "s1@x"⟩, []⟩) ⟨[], false⟩ [65, 0, 7]).1
      = some ⟨2, ⟨"t2", "g.bin", 3, "s2@x"⟩, [7]⟩
    ∧ acceptTransfer
        ⟨"R", some ⟨2, ⟨"t2", "g.bin", 3, "s2@x"⟩, [7]⟩, []⟩ "t1"
        = (false, ⟨"R", some ⟨2, ⟨"t2", "g.bin", 3, "s2@x"⟩, [7]⟩, []⟩, [], [])
    ∧ SockAction.resume 1
        ∉ (runCmds ⟨"R", some ⟨2, ⟨"t2", "g.bin", 3, "s2@x"⟩, [7]⟩, []⟩
            [Cmd.accept "t2", Cmd.reject "t2"]).2 := by
  refine ⟨?_, ?_, ?_⟩
  · exact claim_C10_second_offer.1 (fun _ => some ⟨"t2", "g.bin", 3, "s2@x"⟩) 2
      (some ⟨1, ⟨"t1", "f.bin", 5, "s1@x"⟩, []⟩) ⟨[], false⟩ [65, 0, 7] 1
      ⟨"t2", "g.bin", 3, "s2@x"⟩ rfl rfl rfl
  · exact (claim_C10_second_offer.2.1
      ⟨"R", some ⟨2, ⟨"t2", "g.bin", 3, "s2@x"⟩, [7]⟩, []⟩
      ⟨2, ⟨"t2", "g.bin", 3, "s2@x"⟩, [7]⟩ "t1" rfl (by decide)).1
  · intro hmem
    refine claim_C10_second_offer.2.2 1
      [Cmd.accept "t2", Cmd.reject "t2"]
      ⟨"R", some ⟨2, ⟨"t2", "g.bin", 3, "s2@x"⟩, [7]⟩, []⟩
      ?_ (SockAction.resume 1) hmem rfl
    intro p hp
    injection hp with hp
    subst hp
    decide

/-! ### Content of the destination file on the receive path -/

lemma recvData_stream_of_ended {info : TransferInfo} {filePath : String}
    {st : ActiveRecv} {c : List ℕ} (h : st.stream.ended = true) :
    (recvData info filePath st c).1.stream = st.stream := by
  obtain ⟨⟨content, ended⟩, rb, im⟩ := st
  simp only at h
  subst h
  simp only [recvData, WriteStream.write, if_true]
  split <;> rfl

lemma recvData_content_of_notEnded {info : TransferInfo} {filePath : String}
    {st : ActiveRecv} {c : List ℕ} (h : st.stream.ended = false) :
    (recvData info filePath st c).1.stream.content = st.stream.content ++ c := by
  obtain ⟨⟨content, ended⟩, rb, im⟩ := st
  simp only at h
  subst h
  simp only [recvData, WriteStream.write, Bool.false_eq_true, if_false]
  split <;> rfl

lemma recvData_ended_of_threshold {info : TransferInfo} {filePath : String}
    {st : ActiveRecv} {c : List ℕ}
    (h : info.fileSize ≤ st.receivedBytes + c.length) :
    (recvData info filePath st c).1.stream.ended = true := by
  simp only [recvData]
  rw [if_pos h]

lemma recvData_ended_of_lt {info : TransferInfo} {filePath : String}
    {st : ActiveRecv} {c : List ℕ} (h1 : st.stream.ended = false)
    (h2 : st.receivedBytes + c.length < info.fileSize) :
    (recvData info filePath st c).1.stream.ended = false := by
  simp only [recvData]
  rw [if_neg (not_le.mpr h2)]
  simp [WriteStream.write, h1]

lemma runChunks_receivedBytes (info : TransferInfo) (filePath : String) :
    ∀ (chunks : List (List ℕ)) (st : ActiveRecv) (evs : List Event),
      (runChunks info filePath (st, evs) chunks).1.receivedBytes
        = st.receivedBytes + (chunks.map List.length).sum := by
  intro chunks
  induction chunks with
  | nil => intro st evs; simp [runChunks]
  | cons c cs ih =>
      intro st evs
      rw [runChunks]
      rw [ih]
      rw [recvData_fst]
      simp [Nat.add_assoc]

lemma runChunks_frozen (info : TransferInfo) (filePath : String) :
    ∀ (chunks : List (List ℕ)) (st : ActiveRecv) (evs : List Event),
      st.stream.ended = true →
      (runChunks info filePath (st, evs) chunks).1.stream = st.stream := by
  intro chunks
  induction chunks with
  | nil => intro st evs _; rfl
  | cons c cs ih =>
      intro st evs h
      rw [runChunks]
      rw [ih _ _ (by rw [recvData_stream_of_ended h, h]),
        recvData_stream_of_ended h]

lemma runChunks_content_take (info : TransferInfo) (filePath : String) :
    ∀ (chunks : List (List ℕ)) (st : ActiveRecv) (evs : List Event),
      ∃ k, (runChunks info filePath (st, evs) chunks).1.stream.content
        = st.stream.content ++ chunks.flatten.take k := by
  intro chunks
  induction chunks with
  | nil =>
      intro st evs
      exact ⟨0, by simp [runChunks]⟩
  | cons c cs ih =>
      intro st evs
      cases hE : st.stream.ended with
      | true =>
          refine ⟨0, ?_⟩
          rw [runChunks_frozen info filePath (c :: cs) st evs hE]
          simp
      | false =>
          rw [runChunks]
          obtain ⟨k, hk⟩ := ih (recvData info filePath st c).1
            (evs ++ (recvData info filePath st c).2)
          refine ⟨c.length + k, ?_⟩
          rw [hk, recvData_content_of_notEnded hE]
          rw [List.flatten_cons, List.take_append, List.append_assoc]

lemma flatten_eq_nil_of_sumLen {cs : List (List ℕ)}
    (h : (cs.map List.length).sum = 0) : cs.flatten = [] :=
  List.length_eq_zero.mp (by rw [List.length_flatten]; exact h)

lemma runChunks_all (info : TransferInfo) (filePath : String) :
    ∀ (chunks : List (List ℕ)) (st : ActiveRecv) (evs : List Event),
      st.stream.ended = false →
      st.receivedBytes + (chunks.map List.length).sum ≤ info.fileSize →
      (runChunks info filePath (st, evs) chunks).1.stream.content
        = st.stream.content ++ chunks.flatten := by
  intro chunks
  induction chunks with
  | nil => intro st evs _ _; simp [runChunks]
  | cons c cs ih =>
      intro st evs hE hle
      simp only [List.map_cons, List.sum_cons] at hle
      rw [runChunks]
      rcases le_or_lt info.fileSize (st.receivedBytes + c.length) with hth | hth
      · have hsum0 : (cs.map List.length).sum = 0 := by omega
        have hnil : cs.flatten = [] := flatten_eq_nil_of_sumLen hsum0
        rw [runChunks_frozen info filePath cs _ _
          (recvData_ended_of_threshold hth)]
        rw [recvData_content_of_notEnded hE]
        rw [List.flatten_cons, hnil]
        simp
      · rw [ih _ _ (recvData_ended_of_lt hE hth)
          (by rw [recvData_fst]; omega)]
        rw [recvData_content_of_notEnded hE]
        rw [List.flatten_cons, List.append_assoc]

/-- Claim C7: the bytes buffered between the header's NUL delimiter and the
accept decision are preserved: after `acceptTransfer` they are written to
the destination file before any bytes read later and are counted into
`receivedBytes`, so the assembled file starts with exactly the buffered
bytes; when the delivered bytes do not exceed the declared size the file is
exactly the buffered bytes followed by all streamed chunks. -/
theorem claim_C7_buffered (info : TransferInfo) (filePath : String)
    (leftover : List ℕ) (chunks : List (List ℕ)) :
    ((recvRun info filePath leftover chunks).1.stream.content.take
        leftover.length = leftover)
    ∧ (∃ k, (recvRun info filePath leftover chunks).1.stream.content
        = leftover ++ chunks.flatten.take k)
    ∧ (recvRun info filePath leftover chunks).1.receivedBytes
        = leftover.length + (chunks.map List.length).sum
    ∧ (leftover.length + (chunks.map List.length).sum ≤ info.fileSize →
        (recvRun info filePath leftover chunks).1.stream.content
          = leftover ++ chunks.flatten) := by
  have hpair : recvRun info filePath leftover chunks
      = runChunks info filePath
          (⟨⟨leftover, false⟩, leftover.length, true⟩,
           (acceptInit info leftover).2) chunks := by
    unfold recvRun
    rw [show acceptInit info leftover
      = ((acceptInit info leftover).1, (acceptInit info leftover).2) from rfl]
    rw [acceptInit_fst]
  obtain ⟨k, hk⟩ := runChunks_content_take info filePath chunks
    ⟨⟨leftover, false⟩, leftover.length, true⟩ (acceptInit info leftover).2
  refine ⟨?_, ⟨k, ?_⟩, ?_, ?_⟩
  · rw [hpair, hk]
    exact List.take_left leftover _
  · rw [hpair, hk]
  · rw [hpair, runChunks_receivedBytes]
  · intro h
    rw [hpair, runChunks_all info filePath chunks _ _ rfl h]

/-- Witness for C7: a 2-byte buffered offer window followed by two chunks
assembles the file in order with the buffered bytes first. -/
theorem claim_C7_buffered_witness :
    (recvRun ⟨"t1", "f.bin", 5, "s@x"⟩ "Downloads/Fileway/f.bin" [1, 2]
        [[3], [4, 5]]).1.stream.content.take 2 = [1, 2]
    ∧ (recvRun ⟨"t1", "f.bin", 5, "s@x"⟩ "Downloads/Fileway/f.bin" [1, 2]
        [[3], [4, 5]]).1.stream.content = [1, 2] ++ [3, 4, 5] := by
  have h := claim_C7_buffered ⟨"t1", "f.bin", 5, "s@x"⟩
    "Downloads/Fileway/f.bin" [1, 2] [[3], [4, 5]]
  refine ⟨h.1, ?_⟩
  have h4 := h.2.2.2 (by norm_num)
  rw [h4]
  rfl

end Transfer

namespace Discovery

/-! ### Stale-device sweeping -/

/-- Claim C4: on a sweep tick every record whose `lastSeen` is more than
the 10-second timeout old is removed (a record survives iff
`now - lastSeen ≤ DEVICE_TIMEOUT`), exactly one `deviceLost` notification
is emitted per removed record (in table order), and one `devicesUpdated`
snapshot is emitted iff at least one record was removed. -/
theorem claim_C4_sweep (st : DiscoveryState) (now : ℤ) :
    (∀ q, q ∈ (cleanupStaleDevices st now).1.devices ↔
        q ∈ st.devices ∧ now - q.2.lastSeen ≤ DEVICE_TIMEOUT)
    ∧ lostList (cleanupStaleDevices st now).2
        = (st.devices.filter fun q => decide (stale now q)).map
            (fun q => DEvent.deviceLost q.2)
    ∧ ((∃ q ∈ st.devices, stale now q) →
        updatedCount (cleanupStaleDevices st now).2 = 1)
    ∧ ((∀ q ∈ st.devices, ¬ stale now q) →
        (cleanupStaleDevices st now).1 = st
          ∧ (cleanupStaleDevices st now).2 = []) := by
  refine ⟨?_, ?_, ?_, ?_⟩
  · intro q
    simp only [cleanupStaleDevices, List.mem_filter, Bool.not_eq_true',
      decide_eq_false_iff_not, stale, not_lt]
  · simp only [cleanupStaleDevices, lostList, List.filter_append,
      List.filter_map]
    rw [show ((fun e => match e with
        | DEvent.deviceLost _ => true
        | _ => false) ∘ fun (q : String × DeviceInfo) => DEvent.deviceLost q.2)
      = fun _ => true from rfl]
    rw [List.filter_true]
    split <;> simp
  · intro ⟨q, hq, hs⟩
    have hmem : q ∈ st.devices.filter fun q => decide (stale now q) :=
      List.mem_filter.mpr ⟨hq, by simpa using hs⟩
    have hne : (st.devices.filter fun q => decide (stale now q)).isEmpty
        = false :=
      List.isEmpty_eq_false.mpr (List.ne_nil_of_mem hmem)
    simp only [cleanupStaleDevices, hne, Bool.false_eq_true, if_false,
      updatedCount, List.filter_append, List.filter_map]
    rw [show ((fun e => match e with
        | DEvent.devicesUpdated _ => true
        | _ => false) ∘ fun (q : String × DeviceInfo) => DEvent.deviceLost q.2)
      = fun _ => false from rfl]
    rw [List.filter_false]
    rfl
  · intro hnone
    have hrem : (st.devices.filter fun q => decide (stale now q)) = [] :=
      List.filter_eq_nil_iff.mpr fun q hq => by simpa using hnone q hq
    have hkeep : (st.devices.filter fun q => ! decide (stale now q))
        = st.devices :=
      List.filter_eq_self.mpr fun q hq => by simpa using hnone q hq
    constructor
    · show ({ st with devices := _ } : DiscoveryState) = st
      rw [hkeep]
    · show _ ++ _ = ([] : List DEvent)
      rw [hrem]
      simp

/-- Witness for C4 at a concrete table: of two records at `now = 10001`,
the one last seen at time 0 (10001 ms ago) is evicted with one `deviceLost`
and one snapshot, the one last seen at 5000 survives. -/
theorem claim_C4_sweep_witness :
    (("b", (⟨"b", "nb", "eb", "ip2", 5000⟩ : DeviceInfo))
        ∈ (cleanupStaleDevices
            ⟨[("a", ⟨"a", "na", "ea", "ip1", 0⟩),
              ("b", ⟨"b", "nb", "eb", "ip2", 5000⟩)], "me"⟩ 10001).1.devices
      ↔ (("b", (⟨"b", "nb", "eb", "ip2", 5000⟩ : DeviceInfo))
          ∈ [("a", (⟨"a", "na", "ea", "ip1", 0⟩ : DeviceInfo)),
             ("b", ⟨"b", "nb", "eb", "ip2", 5000⟩)]
        ∧ (10001 : ℤ) - 5000 ≤ DEVICE_TIMEOUT))
    ∧ updatedCount (cleanupStaleDevices
        ⟨[("a", ⟨"a", "na", "ea", "ip1", 0⟩),
          ("b", ⟨"b", "nb", "eb", "ip2", 5000⟩)], "me"⟩ 10001).2 = 1 := by
  have h := claim_C4_sweep
    ⟨[("a", ⟨"a", "na", "ea", "ip1", 0⟩),
      ("b", ⟨"b", "nb", "eb", "ip2", 5000⟩)], "me"⟩ 10001
  refine ⟨h.1 _, ?_⟩
  refine h.2.2.1 ⟨("a", ⟨"a", "na", "ea", "ip1", 0⟩), ?_, ?_⟩
  · exact List.mem_cons.mpr (Or.inl rfl)
  · show DEVICE_TIMEOUT < (10001 : ℤ) - 0
    norm_num [DEVICE_TIMEOUT]

/-! ### Presence upserts -/

lemma handleMessage_presence (st : DiscoveryState)
    (did name email addr : String) (now : ℤ) (hself : did ≠ st.myDeviceId) :
    handleMessage st (Datagram.parsed "presence" did name email) addr now
      = ({ st with
            devices := mapSet did ⟨did, name, email, addr, now⟩ st.devices },
         (if (st.devices.lookup did).isNone
          then [DEvent.deviceFound ⟨did, name, email, addr, now⟩] else [])
           ++ [DEvent.devicesUpdated (getDeviceList
                { st with
                   devices :=
                     mapSet did ⟨did, name, email, addr, now⟩ st.devices })]) := by
  unfold handleMessage
  dsimp only
  rw [if_neg (by simp), if_neg hself]

lemma updatedCount_append (a b : List DEvent) :
    updatedCount (a ++ b) = updatedCount a + updatedCount b := by
  simp [updatedCount, List.filter_append]

lemma updatedCount_step (c : Bool) (i : DeviceInfo) (l : List DeviceInfo) :
    updatedCount ((if c then [DEvent.deviceFound i] else [])
      ++ [DEvent.devicesUpdated l]) = 1 := by
  cases c <;> rfl

lemma runPresence_cons (st : DiscoveryState) (evs : List DEvent)
    (m : PresenceMsg) (ms : List PresenceMsg) :
    runPresence (st, evs) (m :: ms)
      = runPresence
          ((handleMessage st
              (Datagram.parsed "presence" m.deviceId m.deviceName m.email)
              m.address m.now).1,
           evs ++ (handleMessage st
              (Datagram.parsed "presence" m.deviceId m.deviceName m.email)
              m.address m.now).2) ms := rfl

lemma runPresence_props (msgs : List PresenceMsg) :
    ∀ (st : DiscoveryState) (evs0 : List DEvent) (d : String)
      (m : PresenceMsg),
      (st.devices.map Prod.fst).Nodup →
      msgs.getLast? = some m →
      (∀ x ∈ msgs, x.deviceId = d) →
      d ≠ st.myDeviceId →
      ((runPresence (st, evs0) msgs).1.devices.countP
          fun q => decide (q.1 = d)) = 1
      ∧ (runPresence (st, evs0) msgs).1.devices.lookup d
          = some ⟨d, m.deviceName, m.email, m.address, m.now⟩
      ∧ updatedCount (runPresence (st, evs0) msgs).2
          = updatedCount evs0 + msgs.length := by
  induction msgs with
  | nil =>
      intro st evs0 d m _ hlast _ _
      simp at hlast
  | cons m0 rest ih =>
      intro st evs0 d m hnodup hlast hall hself
      have hd0 : m0.deviceId = d := hall m0 (List.mem_cons.mpr (Or.inl rfl))
      have hself0 : m0.deviceId ≠ st.myDeviceId := by rw [hd0]; exact hself
      rw [runPresence_cons,
        handleMessage_presence st m0.deviceId m0.deviceName m0.email
          m0.address m0.now hself0]
      cases rest with
      | nil =>
          have hm : m0 = m := by simpa using hlast
          subst hm
          subst hd0
          refine ⟨countP_key_mapSet hnodup, lookup_mapSet _ _ _, ?_⟩
          rw [show runPresence (_, evs0 ++ _) [] = (_, evs0 ++ _) from rfl]
          rw [updatedCount_append, updatedCount_step]
          rfl
      | cons r rs =>
          have hres := ih
            { st with
               devices :=
                 mapSet m0.deviceId
                   ⟨m0.deviceId, m0.deviceName, m0.email, m0.address, m0.now⟩
                   st.devices }
            (evs0 ++ ((if (st.devices.lookup m0.deviceId).isNone
              then [DEvent.deviceFound
                ⟨m0.deviceId, m0.deviceName, m0.email, m0.address, m0.now⟩]
              else [])
              ++ [DEvent.devicesUpdated (getDeviceList
                  { st with
                     devices :=
                       mapSet m0.deviceId
                         ⟨m0.deviceId, m0.deviceName, m0.email, m0.address,
                          m0.now⟩ st.devices })]))
            d m (nodup_keys_mapSet hnodup) (by simpa using hlast)
            (fun x hx => hall x (List.mem_cons.mpr (Or.inr hx))) hself
          refine ⟨hres.1, hres.2.1, ?_⟩
          rw [hres.2.2, updatedCount_append, updatedCount_step]
          simp only [List.length_cons]
          omega

/-- Claim C5: feeding N ≥ 1 presence messages with the same (non-self)
`deviceId` through `handleMessage` leaves exactly one table entry for that
id, holding the name, email, source address and `lastSeen` of the most
recent message; a `devicesUpdated` snapshot is emitted for every message;
and `deviceFound` is emitted exactly when the id was absent before the
upsert. -/
theorem claim_C5_upsert :
    (∀ (st : DiscoveryState) (msgs : List PresenceMsg) (d : String)
        (m : PresenceMsg) (evs0 : List DEvent),
        (st.devices.map Prod.fst).Nodup →
        msgs.getLast? = some m →
        (∀ x ∈ msgs, x.deviceId = d) →
        d ≠ st.myDeviceId →
        ((runPresence (st, evs0) msgs).1.devices.countP
            fun q => decide (q.1 = d)) = 1
        ∧ (runPresence (st, evs0) msgs).1.devices.lookup d
            = some ⟨d, m.deviceName, m.email, m.address, m.now⟩
        ∧ updatedCount (runPresence (st, evs0) msgs).2
            = updatedCount evs0 + msgs.length)
    ∧ (∀ (st : DiscoveryState) (did name email addr : String) (now : ℤ),
        did ≠ st.myDeviceId →
        ((∃ i, DEvent.deviceFound i
            ∈ (handleMessage st (Datagram.parsed "presence" did name email)
                addr now).2)
          ↔ st.devices.lookup did = none)) := by
  constructor
  · intro st msgs d m evs0 hnodup hlast hall hself
    exact runPresence_props msgs st evs0 d m hnodup hlast hall hself
  · intro st did name email addr now hself
    rw [handleMessage_presence st did name email addr now hself]
    rcases hLu : st.devices.lookup did with _ | v
    · simp
    · simp

/-- Witness for C5: two presence messages for `d1` into an empty table
leave one entry with the second message's fields, two snapshots, and the
first message triggers `deviceFound`. -/
theorem claim_C5_upsert_witness :
    ((runPresence (⟨[], "me"⟩, [])
        [⟨"d1", "n1", "e1", "a1", 5⟩, ⟨"d1", "n2", "e2", "a2", 9⟩]).1.devices.countP
        fun q => decide (q.1 = "d1")) = 1
    ∧ (runPresence (⟨[], "me"⟩, [])
        [⟨"d1", "n1", "e1", "a1", 5⟩, ⟨"d1", "n2", "e2", "a2", 9⟩]).1.devices.lookup
        "d1" = some ⟨"d1", "n2", "e2", "a2", 9⟩
    ∧ updatedCount (runPresence (⟨[], "me"⟩, [])
        [⟨"d1", "n1", "e1", "a1", 5⟩, ⟨"d1", "n2", "e2", "a2", 9⟩]).2
        = updatedCount [] + 2
    ∧ (∃ i, DEvent.deviceFound i
        ∈ (handleMessage ⟨[], "me"⟩
            (Datagram.parsed "presence" "d1" "n1" "e1") "a1" 5).2) := by
  have h := claim_C5_upsert.1 ⟨[], "me"⟩
    [⟨"d1", "n1", "e1", "a1", 5⟩, ⟨"d1", "n2", "e2", "a2", 9⟩] "d1"
    ⟨"d1", "n2", "e2", "a2", 9⟩ []
    (by simp) rfl (by decide) (by decide)
  exact ⟨h.1, h.2.1, h.2.2,
    (claim_C5_upsert.2 ⟨[], "me"⟩ "d1" "n1" "e1" "a1" 5 (by decide)).mpr rfl⟩

/-! ### Datagram filtering and self-exclusion -/

lemma selfFree_handleMessage (st : DiscoveryState) (d : Datagram)
    (addr : String) (now : ℤ) (h : SelfFree st) :
    SelfFree (handleMessage st d addr now).1 := by
  cases d with
  | malformed => exact h
  | parsed t did name email =>
      unfold handleMessage
      dsimp only
      by_cases ht : t ≠ "presence"
      · rw [if_pos ht]
        exact h
      · rw [if_neg ht]
        by_cases hd : did = st.myDeviceId
        · rw [if_pos hd]
          exact h
        · rw [if_neg hd]
          intro info hmem
          simp only [getDeviceList] at hmem
          rcases mem_values_mapSet hmem with hv | hv
          · exact h info hv
          · subst hv
            exact hd

lemma selfFree_cleanup (st : DiscoveryState) (now : ℤ) (h : SelfFree st) :
    SelfFree (cleanupStaleDevices st now).1 := by
  intro info hmem
  simp only [cleanupStaleDevices, getDeviceList, List.mem_map] at hmem
  obtain ⟨q, hq, rfl⟩ := hmem
  exact h q.2 (List.mem_map.mpr ⟨q, (List.mem_filter.mp hq).1, rfl⟩)

lemma selfFree_runDSteps :
    ∀ (steps : List DStep) (st : DiscoveryState),
      SelfFree st → SelfFree (runDSteps st steps) := by
  intro steps
  induction steps with
  | nil => intro st h; exact h
  | cons s ss ih =>
      intro st h
      rw [runDSteps]
      refine ih _ ?_
      cases s with
      | msg d a now => exact selfFree_handleMessage st d a now h
      | sweep now => exact selfFree_cleanup st now h

/-- Claim C6: a datagram that fails to parse, has the wrong `type`, or
carries the instance's own device id is discarded silently — no table
change and no notification; consequently, starting from any self-free
state, no sequence of datagrams and sweeps ever makes `getDeviceList`
contain a record whose `deviceId` equals the instance's own. -/
theorem claim_C6_discard :
    (∀ (st : DiscoveryState) (addr : String) (now : ℤ),
        handleMessage st Datagram.malformed addr now = (st, []))
    ∧ (∀ (st : DiscoveryState) (t did name email addr : String) (now : ℤ),
        t ≠ "presence" →
        handleMessage st (Datagram.parsed t did name email) addr now
          = (st, []))
    ∧ (∀ (st : DiscoveryState) (t name email addr : String) (now : ℤ),
        handleMessage st (Datagram.parsed t st.myDeviceId name email) addr now
          = (st, []))
    ∧ (∀ (st : DiscoveryState) (steps : List DStep),
        SelfFree st → SelfFree (runDSteps st steps)) := by
  refine ⟨fun st addr now => rfl, ?_, ?_, fun st steps h =>
    selfFree_runDSteps steps st h⟩
  · intro st t did name email addr now ht
    unfold handleMessage
    dsimp only
    rw [if_pos ht]
  · intro st t name email addr now
    unfold handleMessage
    dsimp only
    by_cases ht : t ≠ "presence"
    · rw [if_pos ht]
    · rw [if_neg ht, if_pos rfl]

/-- Witness for C6: a malformed datagram, a wrong-type datagram and a
self-announcement leave a concrete one-entry table untouched, and
self-freeness survives a presence message plus a sweep. -/
theorem claim_C6_discard_witness :
    handleMessage ⟨[("a", ⟨"a", "n", "e", "ip", 0⟩)], "me"⟩
        Datagram.malformed "x" 7
      = (⟨[("a", ⟨"a", "n", "e", "ip", 0⟩)], "me"⟩, [])
    ∧ handleMessage ⟨[("a", ⟨"a", "n", "e", "ip", 0⟩)], "me"⟩
        (Datagram.parsed "hello" "b" "n" "e") "x" 7
      = (⟨[("a", ⟨"a", "n", "e", "ip", 0⟩)], "me"⟩, [])
    ∧ handleMessage ⟨[("a", ⟨"a", "n", "e", "ip", 0⟩)], "me"⟩
        (Datagram.parsed "presence" "me" "n" "e") "x" 7
      = (⟨[("a", ⟨"a", "n", "e", "ip", 0⟩)], "me"⟩, [])
    ∧ SelfFree (runDSteps ⟨[("a", ⟨"a", "n", "e", "ip", 0⟩)], "me"⟩
        [DStep.msg (Datagram.parsed "presence" "d2" "n2" "e2") "ip2" 50,
         DStep.sweep 99]) := by
  refine ⟨claim_C6_discard.1 _ "x" 7, ?_, ?_, ?_⟩
  · exact claim_C6_discard.2.1
      ⟨[("a", ⟨"a", "n", "e", "ip", 0⟩)], "me"⟩ "hello" "b" "n" "e" "x" 7
      (by decide)
  · exact claim_C6_discard.2.2.1
      ⟨[("a", ⟨"a", "n", "e", "ip", 0⟩)], "me"⟩ "presence" "n" "e" "x" 7
  · refine claim_C6_discard.2.2.2
      ⟨[("a", ⟨"a", "n", "e", "ip", 0⟩)], "me"⟩ _ ?_
    intro info hmem
    simp only [getDeviceList, List.map_cons, List.map_nil] at hmem
    rw [List.mem_singleton] at hmem
    subst hmem
    decide

/-! ### Broadcast ticks -/

lemma filterMap_guard {α β : Type} (p : α → Bool) (g : α → β) (l : List α) :
    l.filterMap (fun a => if p a then none else some (g a))
      = (l.filter fun a => !p a).map g := by
  induction l with
  | nil => rfl
  | cons a l ih =>
      cases hp : p a <;>
        simp [List.filterMap_cons, List.filter_cons, hp, ih]

/-- Claim C9: a broadcast tick without a truthy email sends nothing; with
the socket up and an identity set, the presence message goes to every
address produced by `getBroadcastAddresses`, which is the per-octet
`ip | (~netmask)` broadcast of every non-internal IPv4 interface, or
`255.255.255.255` when no such interface exists. -/
theorem claim_C9_broadcast :
    (∀ (sp : Bool) (did dn : String) (e : Option String) (now : ℤ)
        (ifs : List (String × List NetIface)),
        truthyEmail e = false →
        broadcastTick sp did dn e now ifs = [])
    ∧ (∀ (did dn : String) (e : Option String) (now : ℤ)
        (ifs : List (String × List NetIface)),
        truthyEmail e = true →
        broadcastTick true did dn e now ifs
          = (getBroadcastAddresses ifs).map
              fun addr => (⟨"presence", did, dn, e.getD "", now⟩, addr))
    ∧ (∀ ifs : List (String × List NetIface),
        (((ifs.map Prod.snd).flatten.filter
              fun i => !(i.internal || decide (i.family ≠ "IPv4"))) ≠ [] →
          getBroadcastAddresses ifs
            = ((ifs.map Prod.snd).flatten.filter
                  fun i => !(i.internal || decide (i.family ≠ "IPv4"))).map
                fun i => broadcastOf i.address i.netmask)
        ∧ (((ifs.map Prod.snd).flatten.filter
              fun i => !(i.internal || decide (i.family ≠ "IPv4"))) = [] →
          getBroadcastAddresses ifs = [[255, 255, 255, 255]])) := by
  refine ⟨?_, ?_, ?_⟩
  · intro sp did dn e now ifs h
    unfold broadcastTick
    rw [h]
    simp
  · intro did dn e now ifs h
    unfold broadcastTick
    rw [h]
    simp
  · intro ifs
    unfold getBroadcastAddresses
    rw [filterMap_guard]
    constructor
    · intro hne
      have hm : (((ifs.map Prod.snd).flatten.filter
            fun i => !(i.internal || decide (i.family ≠ "IPv4"))).map
            fun i => broadcastOf i.address i.netmask) ≠ [] :=
        fun hmapnil => hne (List.map_eq_nil_iff.mp hmapnil)
      rw [if_neg (by rw [List.isEmpty_eq_true]; exact hm)]
    · intro hnil
      rw [if_pos (by rw [List.isEmpty_eq_true, List.map_eq_nil_iff]; exact hnil)]

/-- Witness for C9: one non-internal IPv4 interface `10.0.0.2/16` yields a
single send of the presence message to `10.0.255.255`; with no usable
interface the fallback is the limited broadcast address; without an email
nothing is sent. -/
theorem claim_C9_broadcast_witness :
    broadcastTick true "d" "n" none 0
        [("eth0", [⟨false, "IPv4", [10, 0, 0, 2], [255, 255, 0, 0]⟩])] = []
    ∧ broadcastTick true "d" "n" (some "a@x") 0
        [("eth0", [⟨false, "IPv4", [10, 0, 0, 2], [255, 255, 0, 0]⟩])]
      = ((getBroadcastAddresses
          [("eth0", [⟨false, "IPv4", [10, 0, 0, 2], [255, 255, 0, 0]⟩])]).map
          fun addr => ((⟨"presence", "d", "n", "a@x", 0⟩ : PresenceOut), addr))
    ∧ getBroadcastAddresses
        [("eth0", [⟨false, "IPv4", [10, 0, 0, 2], [255, 255, 0, 0]⟩])]
      = [[10, 0, 255, 255]]
    ∧ getBroadcastAddresses [("lo", [⟨true, "IPv4", [127, 0, 0, 1], [255, 0, 0, 0]⟩])]
      = [[255, 255, 255, 255]] := by
  refine ⟨?_, ?_, ?_, ?_⟩
  · exact claim_C9_broadcast.1 true "d" "n" none 0
      [("eth0", [⟨false, "IPv4", [10, 0, 0, 2], [255, 255, 0, 0]⟩])] rfl
  · exact claim_C9_broadcast.2.1 "d" "n" (some "a@x") 0
      [("eth0", [⟨false, "IPv4", [10, 0, 0, 2], [255, 255, 0, 0]⟩])]
      (by decide)
  · rw [(claim_C9_broadcast.2.2
      [("eth0", [⟨false, "IPv4", [10, 0, 0, 2], [255, 255, 0, 0]⟩])]).1
      (by decide)]
    rfl
  · exact (claim_C9_broadcast.2.2
      [("lo", [⟨true, "IPv4", [127, 0, 0, 1], [255, 0, 0, 0]⟩])]).2 (by decide)

end Discovery

end Fileway
